import Mathlib

/-!
Verification of the multi-LLM control room session routing core.

The repository ships the routing engine as blueprint pseudocode
(BroadcastRouter, CoordinatorRouter, RoundRobinRouter, VotingRouter,
SessionManager, the adapter layer) together with the frontend session
setup component (addModel, removeModel, handleStart) and the frontend
store (addMessage).  The definitions below are a shallow embedding of
those functions.  Where a function is only called in the repository but
its body is absent (parse_selection, tally_votes, the event bookkeeping
of the backend, the UsageLedger budget pre-check), the definition is
marked as modelled from the spec.
-/

/-- One configured model entry of the frontend session setup
(ModelConfig in lib/store.ts). -/
structure ModelConfig where
  id : String
  provider : String
  model_name : String
  role : String
  temperature : ℚ
  deriving DecidableEq, Repr

/-- The currentModel form state of the SessionSetup component. -/
structure CurrentModel where
  provider : String
  model_name : String
  role : String
  deriving DecidableEq, Repr

/-- The addModel handler of the SessionSetup component: when the form
holds a nonempty model name and fewer than 5 models are configured, a
new entry is appended whose identifier is the string model_ followed by
the successor of the current list length. -/
def addModelList (models : List ModelConfig) (cur : CurrentModel) : List ModelConfig :=
  if cur.model_name ≠ "" ∧ models.length < 5 then
    models ++ [{ id := "model_" ++ toString (models.length + 1),
                 provider := cur.provider,
                 model_name := cur.model_name,
                 role := cur.role,
                 temperature := (7 : ℚ) / 10 }]
  else models

/-- The removeModel handler of the SessionSetup component: keeps exactly
the entries whose identifier differs from the given one. -/
def removeModel (models : List ModelConfig) (targetId : String) : List ModelConfig :=
  models.filter (fun m => m.id ≠ targetId)

/-- The handleStart handler of the SessionSetup component: onStart is
invoked (returning the routing tag and the model list) only when at
least one model is configured; with zero models nothing happens. -/
def handleStart (routing : String) (models : List ModelConfig) :
    Option (String × List ModelConfig) :=
  if models.length > 0 then some (routing, models) else none

/-- A session setup operation: pressing Add Model with a given form
state, or pressing Remove on a given identifier. -/
inductive SetupOp where
  | add (cur : CurrentModel)
  | remove (targetId : String)
  deriving DecidableEq, Repr

/-- Applying one setup operation to the configured model list. -/
def applySetupOp (models : List ModelConfig) : SetupOp → List ModelConfig
  | .add cur => addModelList models cur
  | .remove i => removeModel models i

/-- Running a sequence of setup operations from the initial empty model
list, as the SessionSetup component does. -/
def runSetup (ops : List SetupOp) : List ModelConfig :=
  ops.foldl applySetupOp []

/-- The full local state touched by the SessionSetup component handlers:
the routing selection, the model list and the add-model form state. -/
structure SetupComponentState where
  routing : String
  models : List ModelConfig
  currentModel : CurrentModel
  deriving DecidableEq, Repr

/-- The removeModel handler acting on the whole component state: it
calls setModels with the filtered list and touches nothing else. -/
def removeModelAction (s : SetupComponentState) (targetId : String) : SetupComponentState :=
  { s with models := removeModel s.models targetId }

/-- One backend participant as the routers see it (identifier of the
configured model). -/
structure Endpoint where
  id : String
  deriving DecidableEq, Repr

/-- Modelled from the spec: the settled result of one adapter call.
The blueprint adapters return Response objects and the backend that
classifies failures is not under src, so a settled call is either a
success carrying content and token/cost usage or a failure carrying an
error kind. -/
inductive SendOutcome where
  | success (content : String) (tokens : Nat) (cost : ℚ)
  | failure (kind : String)
  deriving DecidableEq, Repr

/-- Whether a settled call succeeded. -/
def SendOutcome.isSuccess : SendOutcome → Bool
  | .success .. => true
  | .failure _ => false

/-- Modelled from the spec: the typed output events of one routing
operation (section 6 event stream, response, failure, vote_result and
complete).  The backend that emits them is not under src. -/
inductive Event where
  | response (endpointId : String) (content : String) (tokens : Nat) (cost : ℚ)
  | failure (endpointId : String) (errorKind : String)
  | voteResult (winningEndpointId : String)
  | complete (totalTokens : Nat) (totalCost : ℚ)
  deriving DecidableEq, Repr

/-- Whether an event is a per-endpoint terminal event (response or
failure). -/
def Event.isTerminal : Event → Bool
  | .response .. => true
  | .failure .. => true
  | _ => false

/-- Whether an event is the terminal complete event. -/
def Event.isCompleteEvent : Event → Bool
  | .complete .. => true
  | _ => false

/-- Tokens carried by a response event; zero on any other event. -/
def Event.tokensOfResponse : Event → Nat
  | .response _ _ t _ => t
  | _ => 0

/-- Cost carried by a response event; zero on any other event. -/
def Event.costOfResponse : Event → ℚ
  | .response _ _ _ c => c
  | _ => 0

/-- Tokens actually incurred by a settled call: its usage on success,
zero on failure. -/
def outcomeTokens : SendOutcome → Nat
  | .success _ t _ => t
  | .failure _ => 0

/-- Cost actually incurred by a settled call: its usage on success,
zero on failure. -/
def outcomeCost : SendOutcome → ℚ
  | .success _ _ c => c
  | .failure _ => 0

/-- Modelled from the spec: the per-endpoint event produced for one
settled call, a response event on success and a failure event naming
the endpoint and error kind otherwise. -/
def eventOfOutcome (r : String × SendOutcome) : Event :=
  match r.2 with
  | .success c t k => .response r.1 c t k
  | .failure k => .failure r.1 k

/-- Modelled from the spec: the event sequence of one Broadcast routing
operation.  The blueprint BroadcastRouter gathers one call per active
model and returns the formatted responses; the event bookkeeping
(per-endpoint response or failure events and the terminal complete
event carrying the incurred totals) lives in the backend that is not
under src and is taken from section 4.1 of the spec.  The input is the
list of settled results, one per active endpoint. -/
def broadcastRoute (results : List (String × SendOutcome)) : List Event :=
  results.map eventOfOutcome ++
    [Event.complete ((results.map (fun r => outcomeTokens r.2)).sum)
                    ((results.map (fun r => outcomeCost r.2)).sum)]

/-- Errors a routing call can end with in the embedding: a classified
configuration error, or the unclassified arithmetic error that Python
raises for a modulus by zero. -/
inductive RouteError where
  | configurationError (msg : String)
  | zeroDivisionError
  deriving DecidableEq, Repr

/-- The blueprint RoundRobinRouter.route: selects the model at position
turn_index modulo the list length, dispatches to it, and increments the
turn index.  With an empty model list the Python source evaluates
turn_index modulo zero, which raises ZeroDivisionError before anything
else happens.  The settled outcome of the dispatched call is supplied
by the send argument; the returned triple is the selected model, the
settled outcome and the new turn index. -/
def roundRobinRoute (turn_index : Nat) (active_models : List Endpoint)
    (send : Endpoint → SendOutcome) :
    Except RouteError (Endpoint × SendOutcome × Nat) :=
  if h : active_models.length = 0 then
    .error .zeroDivisionError
  else
    let current_model := active_models.get
      ⟨turn_index % active_models.length, Nat.mod_lt _ (Nat.pos_of_ne_zero h)⟩
    .ok (current_model, send current_model, turn_index + 1)

/-- The endpoints selected by consecutive RoundRobin routing calls: one
message per entry of sends, threading the turn index as the router
does.  An error stops the run. -/
def roundRobinDispatches (eps : List Endpoint) :
    Nat → List (Endpoint → SendOutcome) → List Endpoint
  | _, [] => []
  | turn_index, send :: rest =>
    match roundRobinRoute turn_index eps send with
    | .error _ => []
    | .ok (m, _, next) => m :: roundRobinDispatches eps next rest

/-- The blueprint VotingRouter.route, phases only: phase 1 gathers one
proposal per active model; phase 2 gathers one vote per member of
active_models (the source iterates the full active model list, not the
successful proposers), and the proposal set handed to each voter is the
full phase 1 result list. -/
structure VotingPhases where
  proposals : List SendOutcome
  voters : List Endpoint
  presented : List SendOutcome
  deriving DecidableEq, Repr

/-- The phase structure of one Voting routing operation as written in
the blueprint VotingRouter.route. -/
def votingRoute (active_models : List Endpoint) (send : Endpoint → SendOutcome) :
    VotingPhases :=
  let proposals := active_models.map send
  { proposals := proposals, voters := active_models, presented := proposals }

/-- Modelled from the spec: the largest vote count received by any of
the first n proposals.  The body of tally_votes is absent from the
repository; section 4.4 of the spec fixes the tally.  A vote is the
index of the proposal it elects, and proposals are indexed by the
position of their author in the original endpoint ordering. -/
def maxVoteCount (n : Nat) (votes : List Nat) : Nat :=
  ((List.range n).map (fun i => votes.count i)).foldr max 0

/-- Modelled from the spec: the winning proposal index, the first (thus
lowest authored) index among the first n whose vote count attains the
maximum.  The body of tally_votes is absent from the repository. -/
def tallyWinner (n : Nat) (votes : List Nat) : Nat :=
  ((List.range n).filter (fun i => votes.count i = maxVoteCount n votes)).headD 0

/-- Modelled from the spec: the subset of specialists the coordinator
selected.  The body of parse_selection is absent from the repository;
section 4.3 of the spec makes parsing best effort, falling back to the
full specialist set when the payload does not parse.  The parser itself
is passed in as the pure function the spec asks for. -/
def coordinatorSelection (parse : String → Option (List Nat))
    (numSpecialists : Nat) (plan : String) : List Nat :=
  match parse plan with
  | some sel => sel
  | none => List.range numSpecialists

/-- The specialists dispatched for one Coordinator turn: the entries of
the specialist list at the selected indices, as in the blueprint
CoordinatorRouter.route. -/
def coordinatorDispatch (parse : String → Option (List Nat))
    (specialists : List Endpoint) (plan : String) : List Endpoint :=
  (coordinatorSelection parse specialists.length plan).filterMap
    (fun i => specialists[i]?)

/-- The pricing entry of one deployment in the Azure adapter pricing
table. -/
structure PricingRate where
  input : ℚ
  output : ℚ
  deriving DecidableEq, Repr

/-- The pricing lookup of AzureOpenAIAdapter.estimate_cost: the rate of
the deployment, defaulting to zero rates when absent. -/
def lookupRate (pricing : List (String × PricingRate)) (deployment_name : String) :
    PricingRate :=
  (((pricing.find? (fun p => p.1 = deployment_name)).map (fun p => p.2)).getD
    { input := 0, output := 0 })

/-- AzureOpenAIAdapter.estimate_cost from the blueprint: tokens divided
by one thousand, times the output rate of the deployment. -/
def estimate_cost (pricing : List (String × PricingRate)) (deployment_name : String)
    (tokens : Nat) : ℚ :=
  ((tokens : ℚ) / 1000) * (lookupRate pricing deployment_name).output

/-- Modelled from the spec: the UsageLedger budget pre-check (sections
3 and 7).  The backend ledger is not under src; per the spec, when a
ceiling is configured and the cumulative session cost plus the estimate
would land strictly above it, the dispatch is refused with a failure
event of kind budget_exceeded and the adapter is not called.  The
returned flag records whether the adapter call happened. -/
def budgetCheckedDispatch (ceiling : Option ℚ) (currentCost : ℚ) (estimate : ℚ)
    (endpointId : String) (callAdapter : Unit → SendOutcome) : Event × Bool :=
  match ceiling with
  | some c =>
    if currentCost + estimate > c then
      (Event.failure endpointId "budget_exceeded", false)
    else
      (eventOfOutcome (endpointId, callAdapter ()), true)
  | none => (eventOfOutcome (endpointId, callAdapter ()), true)

/-- One conversation message as stored by the frontend store. -/
structure Message where
  id : String
  role : String
  content : String
  model_id : Option String
  timestamp : String
  tokens : Option Nat
  cost : Option ℚ
  deriving DecidableEq, Repr

/-- The addMessage action of the frontend store: the new message is
appended to the end of the message list. -/
def addMessage (messages : List Message) (message : Message) : List Message :=
  messages ++ [message]

/-- The history effect of SessionManager.send_message in the blueprint:
the inbound user message is appended first, then each model response in
order. -/
def sendMessageHistory (history : List Message) (userMsg : Message)
    (responses : List Message) : List Message :=
  responses.foldl addMessage (addMessage history userMsg)

/-- Running N sequential message-handling operations over the history:
each operation is the inbound user message paired with the model
responses it produced. -/
def runConversation (history : List Message) :
    List (Message × List Message) → List Message
  | [] => history
  | (u, rs) :: rest => runConversation (sendMessageHistory history u rs) rest

/-- The messages contributed by a sequence of operations in arrival
order: for each operation its user message then its responses. -/
def arrivalOrder (ops : List (Message × List Message)) : List Message :=
  (ops.map (fun p => p.1 :: p.2)).flatten

/-- Concrete endpoints A, B, C for the round robin cycling instance. -/
def epsRR : List Endpoint := [{ id := "A" }, { id := "B" }, { id := "C" }]

/-- Four consecutive messages for the round robin instance, the second
and fourth of which fail. -/
def sendsRR : List (Endpoint → SendOutcome) :=
  [fun _ => .success "ok" 1 0,
   fun _ => .failure "timeout",
   fun _ => .success "ok" 1 0,
   fun _ => .failure "timeout"]

/-- Three concrete specialists for the coordinator fallback instance. -/
def specialistsC : List Endpoint :=
  [{ id := "model_1" }, { id := "model_2" }, { id := "model_3" }]

/-- A selection parser that accepts nothing, exhibiting a payload that
fails to parse. -/
def parseNone : String → Option (List Nat) := fun _ => none

/-- A concrete Azure pricing table with a single deployment. -/
def azurePricing : List (String × PricingRate) :=
  [("gpt-4", { input := (3 : ℚ) / 100, output := (1 : ℚ) / 10 })]

/-- First concrete endpoint of the voting instance. -/
def epV0 : Endpoint := { id := "model_1" }

/-- Second concrete endpoint of the voting instance. -/
def epV1 : Endpoint := { id := "model_2" }

/-- A concrete phase 1 send in which the first endpoint proposes
successfully and the second fails. -/
def sendV : Endpoint → SendOutcome := fun e =>
  if e.id = "model_1" then .success "proposal0" 1 0 else .failure "timeout"

/-- A concrete send for the empty endpoint list instance; it is never
reached. -/
def sendNone : Endpoint → SendOutcome := fun _ => .failure "unreachable"

/-- A concrete setup operation sequence: add two models, remove the
first, add a third. -/
def ops9 : List SetupOp :=
  [.add { provider := "ollama", model_name := "llama2", role := "" },
   .add { provider := "ollama", model_name := "codellama", role := "" },
   .remove "model_1",
   .add { provider := "ollama", model_name := "mistral", role := "" }]

/-- First concrete configured model of the removal instance. -/
def m10a : ModelConfig :=
  { id := "model_1", provider := "ollama", model_name := "llama2",
    role := "General", temperature := (7 : ℚ) / 10 }

/-- Second concrete configured model of the removal instance. -/
def m10b : ModelConfig :=
  { id := "model_2", provider := "ollama", model_name := "codellama",
    role := "Coder", temperature := (7 : ℚ) / 10 }

/-- A concrete component state holding both models of the removal
instance. -/
def s10 : SetupComponentState :=
  { routing := "broadcast", models := [m10a, m10b],
    currentModel := { provider := "ollama", model_name := "", role := "" } }

lemma eventOfOutcome_isTerminal (r : String × SendOutcome) :
    (eventOfOutcome r).isTerminal = true := by
  rcases r with ⟨i, (o | o)⟩ <;> rfl

lemma eventOfOutcome_not_complete (r : String × SendOutcome) :
    (eventOfOutcome r).isCompleteEvent = false := by
  rcases r with ⟨i, (o | o)⟩ <;> rfl

lemma tokensOfResponse_eventOfOutcome (r : String × SendOutcome) :
    (eventOfOutcome r).tokensOfResponse = outcomeTokens r.2 := by
  rcases r with ⟨i, (o | o)⟩ <;> rfl

lemma costOfResponse_eventOfOutcome (r : String × SendOutcome) :
    (eventOfOutcome r).costOfResponse = outcomeCost r.2 := by
  rcases r with ⟨i, (o | o)⟩ <;> rfl

/-- C1: For every Broadcast routing operation over N settled endpoint
calls, each endpoint yields exactly one terminal event (its response
or failure event, in order), the count of response plus failure events
equals N, exactly one complete event follows as the last event, and
its token and cost totals equal the sums over the response events only
(failed calls contribute zero). -/
theorem broadcast_event_discipline (results : List (String × SendOutcome)) :
    (broadcastRoute results).countP (fun e => e.isTerminal) = results.length
  ∧ (broadcastRoute results).countP (fun e => e.isCompleteEvent) = 1
  ∧ (broadcastRoute results).dropLast = results.map eventOfOutcome
  ∧ (broadcastRoute results).getLast? =
      some (Event.complete (((broadcastRoute results).map Event.tokensOfResponse).sum)
                           (((broadcastRoute results).map Event.costOfResponse).sum)) := by
  have hterm : ((fun e => e.isTerminal) ∘ eventOfOutcome)
      = fun _ : String × SendOutcome => true := by
    funext r
    exact eventOfOutcome_isTerminal r
  have hcomp : ((fun e => e.isCompleteEvent) ∘ eventOfOutcome)
      = fun _ : String × SendOutcome => false := by
    funext r
    exact eventOfOutcome_not_complete r
  have htok : (Event.tokensOfResponse ∘ eventOfOutcome)
      = fun r : String × SendOutcome => outcomeTokens r.2 := by
    funext r
    exact tokensOfResponse_eventOfOutcome r
  have hcost : (Event.costOfResponse ∘ eventOfOutcome)
      = fun r : String × SendOutcome => outcomeCost r.2 := by
    funext r
    exact costOfResponse_eventOfOutcome r
  refine ⟨?_, ?_, ?_, ?_⟩
  · rw [broadcastRoute, List.countP_append, List.countP_map, hterm]
    simp [Event.isTerminal]
  · rw [broadcastRoute, List.countP_append, List.countP_map, hcomp]
    simp [Event.isCompleteEvent]
  · rw [broadcastRoute, List.dropLast_concat]
  · have h1 : ((broadcastRoute results).map Event.tokensOfResponse).sum
        = (results.map (fun r => outcomeTokens r.2)).sum := by
      rw [broadcastRoute, List.map_append, List.map_map, htok]
      simp [Event.tokensOfResponse]
    have h2 : ((broadcastRoute results).map Event.costOfResponse).sum
        = (results.map (fun r => outcomeCost r.2)).sum := by
      rw [broadcastRoute, List.map_append, List.map_map, hcost]
      simp [Event.costOfResponse]
    rw [h1, h2, broadcastRoute, List.getLast?_concat]

lemma range_filterMap_getElem {α : Type} (l : List α) :
    (List.range l.length).filterMap (fun i => l[i]?) = l := by
  induction l with
  | nil => rfl
  | cons x xs ih =>
    simp only [List.length_cons, List.range_succ_eq_map, List.filterMap_cons,
      List.getElem?_cons_zero, List.filterMap_map]
    have hfun : ((fun i => (x :: xs)[i]?) ∘ Nat.succ) = fun i => xs[i]? := by
      funext i
      simp [Function.comp]
    rw [hfun, ih]

/-- C4: For every Coordinator routing operation whose selection payload
fails to parse, the turn does not fail: the full specialist set is
treated as selected and all specialists are dispatched for that turn. -/
theorem coordinator_parse_fallback (parse : String → Option (List Nat))
    (specialists : List Endpoint) (plan : String) (h : parse plan = none) :
    coordinatorDispatch parse specialists plan = specialists := by
  unfold coordinatorDispatch coordinatorSelection
  rw [h]
  exact range_filterMap_getElem specialists

/-- C4 witness: a concrete payload that no parser accepts leads to all
three specialists being dispatched. -/
theorem coordinator_parse_fallback_witness :
    coordinatorDispatch parseNone specialistsC "this is not a selection payload"
      = specialistsC :=
  coordinator_parse_fallback parseNone specialistsC "this is not a selection payload" rfl

/-- C5: For every session with a configured cost ceiling, a dispatch
whose estimated cost added to the cumulative session cost lands
strictly above the ceiling is refused before the adapter call is made,
yielding a failure event of kind budget_exceeded, and the adapter is
not called. -/
theorem budget_precheck (c currentCost estimate : ℚ) (endpointId : String)
    (callAdapter : Unit → SendOutcome) (h : currentCost + estimate > c) :
    budgetCheckedDispatch (some c) currentCost estimate endpointId callAdapter
      = (Event.failure endpointId "budget_exceeded", false) := by
  simp [budgetCheckedDispatch, h]

/-- C5 witness: with ceiling one dollar, current spend 0.95 and an
estimated cost of 0.10 (from the embedded Azure estimate over 1000
tokens at output rate 0.10 per 1000), the dispatch is refused with a
budget_exceeded failure and the adapter flag is false. -/
theorem budget_precheck_witness :
    estimate_cost azurePricing "gpt-4" 1000 = (1 : ℚ) / 10
  ∧ budgetCheckedDispatch (some 1) ((19 : ℚ) / 20)
      (estimate_cost azurePricing "gpt-4" 1000) "model_1"
      (fun _ => .success "hi" 50 ((1 : ℚ) / 10))
      = (Event.failure "model_1" "budget_exceeded", false) := by
  have hest : estimate_cost azurePricing "gpt-4" 1000 = (1 : ℚ) / 10 := by
    norm_num [estimate_cost, lookupRate, azurePricing]
  refine ⟨hest, ?_⟩
  refine budget_precheck 1 ((19 : ℚ) / 20) _ "model_1" _ ?_
  rw [hest]
  norm_num

/-- C7 counterexample: routing with an empty endpoint list does not
fail with a configuration error at the concrete input, refuting the
first half of the claim as stated: it fails with the unclassified
arithmetic error arising from the modulus by zero. -/
theorem empty_endpoints_counterexample :
    ¬ ∃ msg, roundRobinRoute 0 [] sendNone = .error (.configurationError msg) := by
  rintro ⟨msg, h⟩
  simp [roundRobinRoute] at h

/-- C7 amended: a RoundRobin routing operation on an empty endpoint
list fails fast, but with the arithmetic division-by-zero error, not a
classified configuration error; and the frontend session setup rejects
starting a session with zero models, so an empty endpoint set does not
reach routing from the UI. -/
theorem empty_endpoints_behavior (turn_index : Nat) (send : Endpoint → SendOutcome)
    (routing : String) :
    roundRobinRoute turn_index [] send = .error .zeroDivisionError
  ∧ handleStart routing [] = none := by
  exact ⟨rfl, rfl⟩

lemma foldl_addMessage (rs : List Message) :
    ∀ acc, rs.foldl addMessage acc = acc ++ rs := by
  induction rs with
  | nil => intro acc; simp
  | cons r rest ih =>
    intro acc
    simp [addMessage, ih]

lemma runConversation_eq :
    ∀ (ops : List (Message × List Message)) (history : List Message),
      runConversation history ops = history ++ arrivalOrder ops := by
  intro ops
  induction ops with
  | nil => intro history; simp [runConversation, arrivalOrder]
  | cons p rest ih =>
    intro history
    rcases p with ⟨u, rs⟩
    rw [runConversation, ih]
    simp [sendMessageHistory, addMessage, foldl_addMessage, arrivalOrder]

/-- C8: conversation history is append-only and preserves arrival
order: each message-handling operation appends the inbound user
message and then its model responses without touching any existing
message, so after any number of sequential operations the history is
the original history followed by the per-operation blocks in strict
arrival order, and the original history survives unchanged as the
prefix. -/
theorem history_append_only (history : List Message)
    (ops : List (Message × List Message)) :
    runConversation history ops = history ++ arrivalOrder ops
  ∧ (runConversation history ops).take history.length = history := by
  have h := runConversation_eq ops history
  refine ⟨h, ?_⟩
  rw [h]
  exact List.take_left history (arrivalOrder ops)

lemma filterMap_ext_mem {α β : Type} (f g : α → Option β) :
    ∀ (l : List α), (∀ a ∈ l, f a = g a) → l.filterMap f = l.filterMap g := by
  intro l
  induction l with
  | nil => intro _; rfl
  | cons x xs ih =>
    intro h
    rw [List.filterMap_cons, List.filterMap_cons, h x (List.mem_cons_self x xs),
      ih (fun a ha => h a (List.mem_cons_of_mem x ha))]

lemma roundRobinDispatches_formula (eps : List Endpoint) (h : 0 < eps.length) :
    ∀ (sends : List (Endpoint → SendOutcome)) (t : Nat),
      roundRobinDispatches eps t sends
        = (List.range sends.length).filterMap
            (fun i => eps[(t + i) % eps.length]?) := by
  intro sends
  induction sends with
  | nil => intro t; simp [roundRobinDispatches]
  | cons s rest ih =>
    intro t
    have hne : eps.length ≠ 0 := Nat.pos_iff_ne_zero.mp h
    simp only [roundRobinDispatches, roundRobinRoute, dif_neg hne]
    rw [ih (t + 1), List.length_cons, List.range_succ_eq_map, List.filterMap_cons]
    have h0 : eps[(t + 0) % eps.length]?
        = some (eps.get ⟨t % eps.length, Nat.mod_lt t h⟩) := by
      rw [Nat.add_zero]
      exact List.getElem?_eq_getElem (Nat.mod_lt t h)
    rw [h0, List.filterMap_map]
    have hfun : ∀ i ∈ List.range rest.length,
        ((fun i => eps[(t + i) % eps.length]?) ∘ Nat.succ) i
          = eps[(t + 1 + i) % eps.length]? := by
      intro i _
      have harith : t + Nat.succ i = t + 1 + i := by omega
      simp only [Function.comp_apply, harith]
    rw [filterMap_ext_mem _ _ (List.range rest.length) hfun]

/-- C2: every RoundRobin routing call on a nonempty endpoint list
selects exactly the endpoint at position cursor modulo the list length
and advances the cursor by one whatever the settled outcome of the
dispatched call is; consequently consecutive messages are dispatched
cyclically through the endpoint list regardless of individual call
success or failure. -/
theorem round_robin_cycle (eps : List Endpoint) (h : 0 < eps.length)
    (turn_index : Nat) (sends : List (Endpoint → SendOutcome)) :
    (∀ send : Endpoint → SendOutcome,
        roundRobinRoute turn_index eps send
          = .ok (eps.get ⟨turn_index % eps.length, Nat.mod_lt turn_index h⟩,
                 send (eps.get ⟨turn_index % eps.length, Nat.mod_lt turn_index h⟩),
                 turn_index + 1))
  ∧ roundRobinDispatches eps turn_index sends
      = (List.range sends.length).filterMap
          (fun i => eps[(turn_index + i) % eps.length]?) := by
  constructor
  · intro send
    simp only [roundRobinRoute, dif_neg (Nat.pos_iff_ne_zero.mp h)]
  · exact roundRobinDispatches_formula eps h sends turn_index

/-- C2 witness: with endpoints A, B, C and four consecutive messages of
which the second and fourth fail, the dispatch order is A, B, C, A. -/
theorem round_robin_cycle_witness :
    roundRobinDispatches epsRR 0 sendsRR
      = [{ id := "A" }, { id := "B" }, { id := "C" }, { id := "A" }] := by
  have h := (round_robin_cycle epsRR (by decide) 0 sendsRR).2
  rw [h]
  rfl

lemma foldr_max_mem : ∀ (l : List Nat), l ≠ [] → l.foldr max 0 ∈ l := by
  intro l
  induction l with
  | nil => intro hl; exact absurd rfl hl
  | cons x xs ih =>
    intro _
    rw [List.foldr_cons]
    by_cases hxs : xs = []
    · subst hxs
      simp
    · rcases Nat.le_total x (xs.foldr max 0) with hle | hle
      · rw [Nat.max_eq_right hle]
        exact List.mem_cons_of_mem x (ih hxs)
      · rw [Nat.max_eq_left hle]
        exact List.mem_cons_self x xs

lemma le_foldr_max : ∀ (l : List Nat) (x : Nat), x ∈ l → x ≤ l.foldr max 0 := by
  intro l
  induction l with
  | nil => intro x hx; cases hx
  | cons y ys ih =>
    intro x hx
    rw [List.foldr_cons]
    rcases List.mem_cons.mp hx with rfl | hmem
    · exact Nat.le_max_left _ _
    · exact le_trans (ih x hmem) (Nat.le_max_right _ _)

lemma headD_mem : ∀ (l : List Nat), l ≠ [] → l.headD 0 ∈ l := by
  intro l
  cases l with
  | nil => intro hl; exact absurd rfl hl
  | cons x xs => intro _; simp [List.headD]

lemma headD_le_of_pairwise_lt (l : List Nat) (hp : l.Pairwise (· < ·)) :
    ∀ x ∈ l, l.headD 0 ≤ x := by
  intro x hx
  cases l with
  | nil => cases hx
  | cons y ys =>
    rcases List.mem_cons.mp hx with rfl | hmem
    · simp [List.headD]
    · have := (List.pairwise_cons.mp hp).1 x hmem
      simp only [List.headD]
      omega

/-- C3: the Voting tally is deterministic: the winning proposal index
is below the proposal count, its vote count is maximal, any proposal
tied with it has an author index at or above the winner (so on a tie
the lowest authored proposal wins), and the winner is invariant under
any permutation of the votes, hence independent of call-completion
order. -/
theorem voting_tally_deterministic (n : Nat) (votes votes2 : List Nat)
    (hn : 0 < n) (hp : votes.Perm votes2) :
    tallyWinner n votes < n
  ∧ (∀ i < n, votes.count i ≤ votes.count (tallyWinner n votes))
  ∧ (∀ i < n, votes.count i = votes.count (tallyWinner n votes) → tallyWinner n votes ≤ i)
  ∧ tallyWinner n votes = tallyWinner n votes2 := by
  have hmapne : (List.range n).map (fun i => votes.count i) ≠ [] := by
    simp [List.range_eq_nil]
    omega
  have hattained : maxVoteCount n votes ∈ (List.range n).map (fun i => votes.count i) :=
    foldr_max_mem _ hmapne
  rcases List.mem_map.mp hattained with ⟨j, hj, hjc⟩
  have hfilterne :
      (List.range n).filter (fun i => votes.count i = maxVoteCount n votes) ≠ [] := by
    apply List.ne_nil_of_mem (a := j)
    rw [List.mem_filter]
    exact ⟨hj, by simp [hjc]⟩
  have hwmem : tallyWinner n votes
      ∈ (List.range n).filter (fun i => votes.count i = maxVoteCount n votes) :=
    headD_mem _ hfilterne
  have hwrange : tallyWinner n votes ∈ List.range n := List.mem_of_mem_filter hwmem
  have hwmax : votes.count (tallyWinner n votes) = maxVoteCount n votes := by
    have := List.of_mem_filter hwmem
    simpa using this
  refine ⟨List.mem_range.mp hwrange, ?_, ?_, ?_⟩
  · intro i hi
    rw [hwmax]
    exact le_foldr_max _ _ (List.mem_map.mpr ⟨i, List.mem_range.mpr hi, rfl⟩)
  · intro i hi hie
    have himem : i ∈ (List.range n).filter (fun i => votes.count i = maxVoteCount n votes) := by
      rw [List.mem_filter]
      refine ⟨List.mem_range.mpr hi, by simp [hie, hwmax]⟩
    exact headD_le_of_pairwise_lt _ ((List.pairwise_lt_range n).filter _) _ himem
  · have hc : ∀ i, votes.count i = votes2.count i := fun i => hp.count_eq i
    simp only [tallyWinner, maxVoteCount, hc]

/-- C3 witness: two proposals with one vote each are an exact tie; the
winner is proposal zero, the one authored by the lowest-indexed
endpoint, and the winner is the same for the two completion orders of
the votes. -/
theorem voting_tally_deterministic_witness :
    tallyWinner 2 [0, 1] = tallyWinner 2 [1, 0] ∧ tallyWinner 2 [0, 1] = 0 :=
  ⟨(voting_tally_deterministic 2 [0, 1] [1, 0] (by decide) (by decide)).2.2.2,
   by decide⟩

/-- C6 counterexample: with two endpoints of which the second fails in
phase 1, the phase 2 voter set of the embedded VotingRouter is not the
successful proposers and the presented proposal set is not the
successful proposals, refuting the claim as stated. -/
theorem voting_phase2_counterexample :
    ¬ ((votingRoute [epV0, epV1] sendV).voters
          = ([epV0, epV1].filter (fun m => (sendV m).isSuccess))
       ∧ (votingRoute [epV0, epV1] sendV).presented
          = (([epV0, epV1].map sendV).filter (fun p => p.isSuccess))) := by
  decide

/-- C6 amended: the blueprint VotingRouter does not exclude phase 1
failures from phase 2: every active endpoint, including one whose
proposal call failed, is asked to vote, and the proposal set presented
to voters is the full list of phase 1 outcomes including failures. -/
theorem voting_phase2_includes_failed (active : List Endpoint)
    (send : Endpoint → SendOutcome) (m : Endpoint) (hm : m ∈ active) :
    m ∈ (votingRoute active send).voters
  ∧ (votingRoute active send).presented = active.map send :=
  ⟨hm, rfl⟩

/-- C6 amended witness: the endpoint whose phase 1 call failed is
nonetheless in the phase 2 voter set, and the presented set is the full
outcome list. -/
theorem voting_phase2_includes_failed_witness :
    (sendV epV1).isSuccess = false
  ∧ (epV1 ∈ (votingRoute [epV0, epV1] sendV).voters
     ∧ (votingRoute [epV0, epV1] sendV).presented = [epV0, epV1].map sendV) :=
  ⟨by decide, voting_phase2_includes_failed [epV0, epV1] sendV epV1 (by decide)⟩

/-- C9: evaluation of the session setup at the failing input: adding
two models, removing the first and adding a third leaves two configured
models that share the identifier model_2, so the uniqueness invariant
claimed for every add/remove sequence does not hold in the code. -/
theorem setup_duplicate_ids :
    (runSetup ops9).map (fun m => m.id) = ["model_2", "model_2"]
  ∧ ¬ ((runSetup ops9).map (fun m => m.id)).Nodup := by
  constructor
  · rfl
  · decide

/-- C10: removing a model by identifier is exact and frame-preserving:
the resulting list is precisely the filter keeping entries with a
different identifier, it is a sublist of the original (relative order
kept), every entry with a different identifier survives unchanged,
every surviving entry has a different identifier and already occurred,
and the routing selection and form state of the component are
untouched. -/
theorem removeModel_exact (s : SetupComponentState) (targetId : String) :
    (removeModelAction s targetId).models = s.models.filter (fun m => m.id ≠ targetId)
  ∧ List.Sublist (removeModelAction s targetId).models s.models
  ∧ (∀ m ∈ s.models, m.id ≠ targetId → m ∈ (removeModelAction s targetId).models)
  ∧ (∀ m ∈ (removeModelAction s targetId).models, m.id ≠ targetId ∧ m ∈ s.models)
  ∧ (removeModelAction s targetId).routing = s.routing
  ∧ (removeModelAction s targetId).currentModel = s.currentModel := by
  refine ⟨rfl, List.filter_sublist s.models, ?_, ?_, rfl, rfl⟩
  · intro m hm hne
    exact List.mem_filter.mpr ⟨hm, by simpa using hne⟩
  · intro m hm
    have h2 := List.mem_filter.mp hm
    exact ⟨by simpa using h2.2, h2.1⟩

/-- C10 witness: removing model_1 from a two-model state keeps the
other model unchanged and leaves the routing selection as it was. -/
theorem removeModel_exact_witness :
    m10b ∈ (removeModelAction s10 "model_1").models
  ∧ (removeModelAction s10 "model_1").routing = s10.routing :=
  ⟨(removeModel_exact s10 "model_1").2.2.1 m10b (by simp [s10]) (by decide),
   (removeModel_exact s10 "model_1").2.2.2.2.1⟩
